import Mathlib

/-!
Shallow embedding of `src/minidoc/dir.go` (the content-dispatching document
server of the minimega documentation site) and proofs about it.

External collaborators (the `present` document parser, the template engine,
the filesystem, `net/http` primitives) are modelled as fields of an
environment record `Env`; the repository's own functions (`dirHandler`,
`isDoc`, `renderDoc`, `renderHTML`, `parse`, `dirList`, `showFile`,
`showDir`) are translated as Lean functions over that environment.

Go's pure path helpers (`path/filepath.Clean`, `Join`, `Ext`, `ToSlash`)
are standard-library collaborators; they are reimplemented here following
their documented semantics (on Unix the separator is `/`).
-/

namespace Minidoc

/-- A directory entry as reported by `os.File.Readdir` / `ioutil.ReadDir`:
the child's base name and whether it is a directory. -/
structure FileInfo where
  name : String
  isDir : Bool
deriving DecidableEq, Repr

/-- The structured document produced by the external `present.Parse`
collaborator; the core only reads its `Title`. -/
structure Doc where
  Title : String
deriving DecidableEq, Repr

/-- `dirEntry` from dir.go: `{Name, Path, Title string}`. -/
structure DirEntry where
  Name : String
  Path : String
  Title : String
deriving DecidableEq, Repr

/-- `dirListData` from dir.go:
`{Path string; Dirs, Slides, Articles, Other dirEntrySlice}`. -/
structure DirListData where
  Path : String
  Dirs : List DirEntry
  Slides : List DirEntry
  Articles : List DirEntry
  Other : List DirEntry
deriving DecidableEq, Repr

/-- What `dirList` wrote to the response writer: either the output of
`renderHTML` for an `index.html` child, or the execution of the directory
listing template over the assembled `dirListData`. -/
inductive WriteEvent where
  | htmlPage (path : String) (body : String)
  | listingPage (d : DirListData) (body : String)
deriving DecidableEq, Repr

/-- The observable outcome of `dirList`: its `(isDir, err)` return values
plus what it wrote to `w`. -/
structure DirListResult where
  isDir : Bool
  err : Option String
  written : Option WriteEvent
deriving DecidableEq, Repr

/-- The parts of `net/url.URL` the handler touches. -/
structure URL where
  scheme : String
  host : String
  path : String
  rawQuery : String
deriving DecidableEq, Repr

/-- An inbound HTTP request (only the URL is inspected by `dirHandler`). -/
structure Request where
  url : URL
deriving DecidableEq, Repr

/-- The response produced by `dirHandler`.  `redirect` carries the Location
URL structurally (its serialization by `url.String()` is a collaborator);
`content` is a 200 whose body was written by one of the renderers or the
lister; `staticOk` is a 200 served by the fallback `http.FileServer`. -/
inductive Response where
  | redirect (code : Nat) (location : URL)
  | httpError (code : Nat) (msg : String)
  | content (body : String)
  | staticOk (body : String)
deriving DecidableEq, Repr

/-- Template handles produced by the template-engine collaborator. -/
abbrev Template := Nat

/-- The external collaborators of dir.go.  Every path argument is the path
relative to the serving root `*f_root` (the `filepath.Join(*f_root, ·)`
performed by the Go code before each filesystem call is absorbed here).

* `openStat`: `os.Open` followed by `File.Stat` — the error of whichever
  step fails first, else the file's info.
* `readDir`: `File.Readdir(0)` / `ioutil.ReadDir` on a directory.
* `openFile`: `os.Open` as used by `parse`, yielding the file's contents.
* `presentParse`: `present.Parse(f, name, mode)` — contents, name, mode.
* `layoutClone`: `layoutTemplate.Clone()`.
* `tmplParseFiles`: `Template.ParseFiles` of the given file into a handle.
* `tmplExec`: `Template.Execute(w, nil)` — the bytes written, or an error.
* `docRender`: `present.Doc.Render(w, contentTemplate[ext])`, keyed by the
  extension used to select the content template.
* `execListing`: `dirListTemplate.Execute(w, d)`.  The spec assumes the
  template engine correct for the startup-validated listing template, so
  this is modelled total.
* `staticFile`: the contract of `http.FileServer(http.Dir(*f_root))` for a
  request path — `some content` when it serves a file, `none` when absent.
-/
structure Env where
  openStat : String → Except String FileInfo
  readDir : String → Except String (List FileInfo)
  openFile : String → Except String String
  presentParse : String → String → Nat → Except String Doc
  layoutClone : Except String Template
  tmplParseFiles : Template → String → Except String Template
  tmplExec : Template → Except String String
  docRender : Doc → String → Except String String
  execListing : DirListData → String
  staticFile : String → Option String

/-- `present.TitlesOnly` parse mode (the full-parse mode is `0`). -/
def TitlesOnly : Nat := 1

/-- `path/filepath.Ext`: the suffix of the last slash-separated element
beginning at its final dot; empty when that element has no dot.  Helper
walking the reversed character list, accumulating the suffix seen so far. -/
def extAux : List Char → List Char → String
  | [], _ => ""
  | c :: rest, acc =>
    if c = '/' then ""
    else if c = '.' then String.mk ('.' :: acc)
    else extAux rest (c :: acc)

/-- `path/filepath.Ext` on a slash-separated path. -/
def filepathExt (path : String) : String :=
  extAux path.data.reverse []

/-- Split a character list at every `/`, accumulating the current
component in reverse; repeated slashes yield empty components (they are
filtered out by `goClean`). -/
def splitComps : List Char → List Char → List String
  | [], cur => [String.mk cur.reverse]
  | c :: rest, cur =>
    if c = '/' then String.mk cur.reverse :: splitComps rest []
    else splitComps rest (c :: cur)

/-- Join path components with `/` separators. -/
def joinComps : List String → String
  | [] => ""
  | [x] => x
  | x :: xs => x ++ "/" ++ joinComps xs

/-- `path.Clean` (for slash-separated paths): drop empty and `.` elements,
resolve `..` against preceding elements, keep leading `..`s of a relative
path, and map the empty result to `.` (or `/` when rooted). -/
def goClean (path : String) : String :=
  if path = "" then "." else
  let rooted := path.front = '/'
  let comps := (splitComps path.data []).filter fun c => c ≠ "" ∧ c ≠ "."
  let stacked := comps.foldl (fun acc c =>
    if c = ".." then
      match acc with
      | [] => if rooted then [] else [".."]
      | h :: t => if h = ".." then c :: h :: t else t
    else c :: acc) []
  let s := joinComps stacked.reverse
  if rooted then "/" ++ s
  else if s = "" then "." else s

/-- `path/filepath.Join` of two elements: concatenate the non-empty
elements with a separator and `Clean` the result. -/
def goJoin (a b : String) : String :=
  if a = "" ∧ b = "" then ""
  else if a = "" then goClean b
  else if b = "" then goClean a
  else goClean (a ++ "/" ++ b)

/-- `filepath.ToSlash`: on Unix the separator is already `/`, so this is
the identity. -/
def toSlash (s : String) : String := s

/-- `strings.HasPrefix pre s`: whether `pre` is a character-wise prefix
of `s`. -/
def goHasPre (s pre : String) : Bool := pre.data.isPrefixOf s.data

/-- `isDoc` from dir.go: whether the path's extension is a key of
`contentTemplate`.  After `initTemplates` the keys are exactly `.slide`
and `.article`. -/
def isDoc (path : String) : Bool :=
  filepathExt path = ".slide" ∨ filepathExt path = ".article"

/-- `showFile` from dir.go: `.pdf`, `.html` and `.go` files are always
shown; anything else is shown only if `isDoc` holds for it. -/
def showFile (n : String) : Bool :=
  match filepathExt n with
  | ".pdf" => true
  | ".html" => true
  | ".go" => true
  | _ => isDoc n

/-- `showDir` from dir.go: hide names starting with `.` or `_` and the
reserved name `present`; otherwise show the directory iff reading it
succeeds and at least one of its children passes `showFile`. -/
def showDir (env : Env) (e : DirEntry) : Bool :=
  let n := e.Name
  if (n.length > 0 ∧ (n.front = '.' ∨ n.front = '_')) ∨ n = "present" then false
  else
    match env.readDir e.Path with
    | .error _ => false
    | .ok files => files.any fun f => showFile f.name

/-- `parse` from dir.go: open the file and hand it to `present.Parse`.
The Go source passes the literal mode `0` to `present.Parse`, not its
`mode` parameter. -/
def parse (env : Env) (name : String) (mode : Nat) : Except String Doc :=
  match env.openFile name with
  | .error e => .error e
  | .ok f => env.presentParse f name 0

/-- `renderDoc` from dir.go: full-parse the file (mode `0`) and render the
resulting document with the content template selected by the file's
extension. -/
def renderDoc (env : Env) (docFile : String) : Except String String :=
  match parse env docFile 0 with
  | .error e => .error e
  | .ok doc => env.docRender doc (filepathExt docFile)

/-- `renderHTML` from dir.go: clone the layout template, parse the target
HTML file into the clone, and execute it; each step's error propagates. -/
def renderHTML (env : Env) (name : String) : Except String String :=
  match env.layoutClone with
  | .error e => .error e
  | .ok t =>
    match env.tmplParseFiles t name with
    | .error e => .error e
    | .ok t2 => env.tmplExec t2

/-- Outcome of `dirList`'s child loop: either the `index.html`
short-circuit returned out of the loop, or the loop finished with the
accumulated listing data. -/
inductive LoopResult where
  | shortCircuit (err : Option String) (written : Option WriteEvent)
  | done (d : DirListData)
deriving DecidableEq, Repr

/-- The `dirEntry` value `dirList` builds for a child: base name, and the
slash-normalized join of the listed path with the base name. -/
def mkEntry (name : String) (fi : FileInfo) : DirEntry :=
  { Name := fi.name, Path := toSlash (goJoin name fi.name), Title := "" }

/-- The title-extraction step of `dirList` for a document entry: on parse
success the title is copied into the entry; on failure the error is only
logged and the entry keeps its empty title. -/
def titledEntry (env : Env) (e : DirEntry) : DirEntry :=
  match parse env e.Path TitlesOnly with
  | .error _ => e
  | .ok p => { e with Title := p.Title }

/-- The `for _, fi := range fis` body of `dirList`, child by child:
skip `pkg` at the root; short-circuit on `index.html` via `renderHTML`;
directories passing `showDir` go to `Dirs`; documents get a titles-only
`parse` (failure logged, title left empty) and go to `Articles`/`Slides`
by the extension of their path; remaining children passing `showFile` go
to `Other`; everything else is dropped. -/
def dirLoop (env : Env) (name : String) : List FileInfo → DirListData → LoopResult
  | [], d => .done d
  | fi :: rest, d =>
    if name = "." ∧ fi.name = "pkg" then
      dirLoop env name rest d
    else
      let e : DirEntry := mkEntry name fi
      if fi.name = "index.html" then
        match renderHTML env e.Path with
        | .ok body => .shortCircuit none (some (.htmlPage e.Path body))
        | .error msg => .shortCircuit (some msg) none
      else if fi.isDir ∧ showDir env e then
        dirLoop env name rest { d with Dirs := d.Dirs ++ [e] }
      else if isDoc e.Name then
        let e' := titledEntry env e
        match filepathExt e.Path with
        | ".article" => dirLoop env name rest { d with Articles := d.Articles ++ [e'] }
        | ".slide" => dirLoop env name rest { d with Slides := d.Slides ++ [e'] }
        | _ => dirLoop env name rest d
      else if showFile e.Name then
        dirLoop env name rest { d with Other := d.Other ++ [e] }
      else
        dirLoop env name rest d

/-- Lexicographic `≤` on character lists, the order induced by Go's `<`
on strings (UTF-8 byte order and code-point order agree). -/
def charsLe : List Char → List Char → Bool
  | [], _ => true
  | _ :: _, [] => false
  | a :: as, b :: bs =>
    if a < b then true else if b < a then false else charsLe as bs

/-- The non-decreasing-name order established by `sort.Sort` with
`Less i j = s[i].Name < s[j].Name`. -/
def nameLe (a b : DirEntry) : Bool := charsLe a.Name.data b.Name.data

/-- `sort.Sort(dirEntrySlice)` with `Less i j = s[i].Name < s[j].Name`:
the result is ordered non-decreasingly by `Name`.  Go's `sort.Sort` is
unstable but any ordered permutation agrees with insertion sort whenever
the names are distinct. -/
def sortEntries (l : List DirEntry) : List DirEntry :=
  List.insertionSort (fun a b => nameLe a b) l

/-- `dirList` from dir.go: stat the path (errors propagate, non-directories
report `(false, nil)` with no output); read the children; run the child
loop; normalize a `.` path to the empty string; sort each category; execute
the listing template. -/
def dirList (env : Env) (name : String) : DirListResult :=
  match env.openStat name with
  | .error e => ⟨false, some e, none⟩
  | .ok fi =>
    if !fi.isDir then ⟨false, none, none⟩
    else
      match env.readDir name with
      | .error e => ⟨false, some e, none⟩
      | .ok fis =>
        match dirLoop env name fis ⟨name, [], [], [], []⟩ with
        | .shortCircuit err written => ⟨true, err, written⟩
        | .done d0 =>
          let d1 := if d0.Path = "." then { d0 with Path := "" } else d0
          let d := { d1 with
            Dirs := sortEntries d1.Dirs
            Slides := sortEntries d1.Slides
            Articles := sortEntries d1.Articles
            Other := sortEntries d1.Other }
          ⟨true, none, some (.listingPage d (env.execListing d))⟩

/-- Body written by `dirList` (empty when it wrote nothing). -/
def writtenBody : Option WriteEvent → String
  | some (.htmlPage _ b) => b
  | some (.listingPage _ b) => b
  | none => ""

/-- The modelled contract of `http.FileServer(http.Dir(*f_root))` for a
plain file request: 200 with the file's content when present, else the
standard `404 page not found` error. -/
def fileServer (env : Env) (urlPath : String) : Response :=
  match env.staticFile urlPath with
  | some body => .staticOk body
  | none => .httpError 404 "404 page not found"

/-- `dirHandler` from dir.go: legacy `/minimega.git` paths are redirected
permanently to github.com with `/sandia-minimega` prepended to the path
(query preserved); `/favicon.ico` is a 404; document extensions go to
`renderDoc` (errors become 500s); then `dirList` (an error is a 500 even
when the path was a directory; a handled directory returns what the lister
wrote); then `.html` goes to `renderHTML`; everything else falls through
to the static file server. -/
def dirHandler (env : Env) (r : Request) : Response :=
  if goHasPre r.url.path "/minimega.git" then
    .redirect 301
      { r.url with host := "github.com", path := "/sandia-minimega" ++ r.url.path }
  else if r.url.path = "/favicon.ico" then
    .httpError 404 "not found"
  else
    let name := goJoin "." r.url.path
    if isDoc name then
      match renderDoc env name with
      | .error e => .httpError 500 e
      | .ok body => .content body
    else
      let res := dirList env name
      match res.err with
      | some e => .httpError 500 e
      | none =>
        if res.isDir then .content (writtenBody res.written)
        else if filepathExt name = ".html" then
          match renderHTML env name with
          | .error e => .httpError 500 e
          | .ok body => .content body
        else fileServer env r.url.path

/-! ## Derived views of the child loop

`classifyChild` restates the per-child branch structure of `dirLoop` as a
single function giving the (at most one) category an enumerated child is
placed into, together with the entry placed there; `collectCat` gathers a
category over a list of children; `mkData` is the listing data `dirList`
assembles when no `index.html` short-circuits.  Lemmas below prove that
`dirLoop`/`dirList` agree with these views. -/

/-- The four categories of a directory listing. -/
inductive Category where
  | dirs | slides | articles | other
deriving DecidableEq, Repr

/-- Where one enumerated child lands: `none` when it is skipped (`pkg` at
the root), would short-circuit (`index.html`), or fails the applicable
visibility checks; otherwise the category and the entry appended to it. -/
def classifyChild (env : Env) (name : String) (fi : FileInfo) :
    Option (Category × DirEntry) :=
  if name = "." ∧ fi.name = "pkg" then none
  else
    let e := mkEntry name fi
    if fi.name = "index.html" then none
    else if fi.isDir ∧ showDir env e then some (.dirs, e)
    else if isDoc e.Name then
      match filepathExt e.Path with
      | ".article" => some (.articles, titledEntry env e)
      | ".slide" => some (.slides, titledEntry env e)
      | _ => none
    else if showFile e.Name then some (.other, e)
    else none

/-- All entries a list of children contributes to one category, in
enumeration order. -/
def collectCat (env : Env) (name : String) (c : Category)
    (fis : List FileInfo) : List DirEntry :=
  fis.filterMap fun fi =>
    match classifyChild env name fi with
    | some (c', e) => if c' = c then some e else none
    | none => none

/-- The listing data assembled by `dirList` for children `fis` of `name`
when no `index.html` short-circuits: each category collected then sorted,
and a `.` path normalized to the empty string. -/
def mkData (env : Env) (name : String) (fis : List FileInfo) : DirListData :=
  { Path := if name = "." then "" else name
    Dirs := sortEntries (collectCat env name .dirs fis)
    Slides := sortEntries (collectCat env name .slides fis)
    Articles := sortEntries (collectCat env name .articles fis)
    Other := sortEntries (collectCat env name .other fis) }

/-! ## Concrete environments used to evaluate the code on explicit inputs -/

/-- A minimal environment: every filesystem and template-parsing
collaborator fails, the listing template renders to a fixed body, the
static responder finds nothing. -/
def defaultEnv : Env where
  openStat := fun _ => .error "stat failed"
  readDir := fun _ => .error "readdir failed"
  openFile := fun _ => .error "open failed"
  presentParse := fun _ _ _ => .error "parse failed"
  layoutClone := .error "clone failed"
  tmplParseFiles := fun _ _ => .error "parsefiles failed"
  tmplExec := fun _ => .error "exec failed"
  docRender := fun _ _ => .error "render failed"
  execListing := fun _ => "LISTING"
  staticFile := fun _ => none

/-- A root whose only entry is `f.bin`, a plain file. -/
def envFile : Env :=
  { defaultEnv with openStat := fun _ => .ok ⟨"f.bin", false⟩ }

/-- A parser collaborator that records the parse mode it was invoked with
in the returned document's title. -/
def envProbe : Env :=
  { defaultEnv with
    openFile := fun _ => .ok "document source"
    presentParse := fun _ _ m => .ok ⟨toString m⟩ }

/-- A root where nothing exists: `openStat` fails as `os.Open` does on a
missing path, and the static responder finds no file. -/
def envAbsent : Env :=
  { defaultEnv with
    openStat := fun _ => .error "open nope.bin: no such file or directory" }

/-- A root containing the plain file `file.bin`, also visible to the
static responder. -/
def envStatic : Env :=
  { defaultEnv with
    openStat := fun p =>
      if p = "file.bin" then .ok ⟨"file.bin", false⟩ else .error "stat failed"
    staticFile := fun p => if p = "/file.bin" then some "DATA" else none }

/-- A root with a directory `talks` whose children are given by `fis`;
documents parse successfully with a title derived from the file read. -/
def envTalks (fis : List FileInfo) : Env :=
  { defaultEnv with
    openStat := fun p =>
      if p = "talks" then .ok ⟨"talks", true⟩ else .error "stat failed"
    readDir := fun p => if p = "talks" then .ok fis else .error "readdir failed"
    openFile := fun p => .ok p
    presentParse := fun f _ _ => .ok ⟨"Title of " ++ f⟩ }

/-- The children of `talks` in the four-file scenario, in a scrambled
enumeration order. -/
def talksFour : List FileInfo :=
  [⟨"z.pdf", false⟩, ⟨".git", true⟩, ⟨"b.slide", false⟩, ⟨"a.article", false⟩]

/-- The children of `talks` after `c.slide` is added. -/
def talksFive : List FileInfo := talksFour ++ [⟨"c.slide", false⟩]

/-- The listing entry produced for `talks/b.slide`. -/
def entryB : DirEntry := ⟨"b.slide", "talks/b.slide", "Title of talks/b.slide"⟩

/-- The listing entry produced for `talks/c.slide`. -/
def entryC : DirEntry := ⟨"c.slide", "talks/c.slide", "Title of talks/c.slide"⟩

/-- The listing entry produced for `talks/a.article`. -/
def entryA : DirEntry :=
  ⟨"a.article", "talks/a.article", "Title of talks/a.article"⟩

/-- The listing entry produced for `talks/z.pdf`. -/
def entryZ : DirEntry := ⟨"z.pdf", "talks/z.pdf", ""⟩

/-- The listing data for the four-file `talks` directory. -/
def dataFour : DirListData := ⟨"talks", [], [entryB], [entryA], [entryZ]⟩

/-- The listing data for `talks` after `c.slide` is added. -/
def dataFive : DirListData :=
  ⟨"talks", [], [entryB, entryC], [entryA], [entryZ]⟩

/-- A directory `d` containing a plain file and an `index.html`; the
template collaborators render the HTML page successfully. -/
def envIndex : Env :=
  { defaultEnv with
    openStat := fun p =>
      if p = "d" then .ok ⟨"d", true⟩ else .error "stat failed"
    readDir := fun p =>
      if p = "d" then .ok [⟨"a.txt", false⟩, ⟨"index.html", false⟩]
      else .error "readdir failed"
    layoutClone := .ok 0
    tmplParseFiles := fun t _ => .ok (t + 1)
    tmplExec := fun _ => .ok "INDEXBODY" }

/-- A directory `d` whose only child is a subdirectory named `a.slide`
containing nothing visible, so it fails the directory-visibility
predicate. -/
def envDocDir : Env :=
  { defaultEnv with
    openStat := fun p =>
      if p = "d" then .ok ⟨"d", true⟩ else .error "stat failed"
    readDir := fun p =>
      if p = "d" then .ok [⟨"a.slide", true⟩]
      else if p = "d/a.slide" then .ok [⟨".hidden", false⟩]
      else .error "readdir failed" }

/-- A serving root whose only child is a directory `pkg` that itself has
a visible child, so it passes the directory-visibility predicate. -/
def envPkg : Env :=
  { defaultEnv with
    openStat := fun p =>
      if p = "." then .ok ⟨".", true⟩ else .error "stat failed"
    readDir := fun p =>
      if p = "." then .ok [⟨"pkg", true⟩]
      else if p = "pkg" then .ok [⟨"a.pdf", false⟩]
      else .error "readdir failed" }

/-- A directory `d` containing a subdirectory `sub` whose enumeration
fails with an I/O error, plus one visible file. -/
def envSubErr : Env :=
  { defaultEnv with
    openStat := fun p =>
      if p = "d" then .ok ⟨"d", true⟩ else .error "stat failed"
    readDir := fun p =>
      if p = "d" then .ok [⟨"sub", true⟩, ⟨"z.pdf", false⟩]
      else .error "input/output error" }

/-- A directory `docs` holding a document `a.slide` whose source is
missing, so its title-only parse fails, next to a healthy `b.slide`. -/
def envBadDoc : Env :=
  { defaultEnv with
    openStat := fun p =>
      if p = "docs" then .ok ⟨"docs", true⟩ else .error "stat failed"
    readDir := fun p =>
      if p = "docs" then .ok [⟨"a.slide", false⟩, ⟨"b.slide", false⟩]
      else .error "readdir failed"
    openFile := fun p =>
      if p = "docs/b.slide" then .ok "good source" else .error "open failed"
    presentParse := fun _ _ _ => .ok ⟨"Good Title"⟩ }

/-- A root listing used to exercise the `showDir` membership result:
a visible subdirectory, a hidden one, the reserved `present`, and one
with no visible content. -/
def envDirs : Env :=
  { defaultEnv with
    openStat := fun p =>
      if p = "top" then .ok ⟨"top", true⟩ else .error "stat failed"
    readDir := fun p =>
      if p = "top" then
        .ok [⟨"good", true⟩, ⟨".hid", true⟩, ⟨"present", true⟩, ⟨"empty", true⟩]
      else if p = "top/good" then .ok [⟨"x.pdf", false⟩]
      else if p = "top/empty" then .ok [⟨"x.bin", false⟩]
      else .error "readdir failed" }

/-! ## Lemmas: the child loop computes the per-category collections -/

/-- Unfolding `collectCat` over one child. -/
theorem collectCat_cons (env : Env) (name : String) (c : Category)
    (fi : FileInfo) (rest : List FileInfo) :
    collectCat env name c (fi :: rest) =
      (match classifyChild env name fi with
       | some (c', e) => if c' = c then [e] else []
       | none => []) ++ collectCat env name c rest := by
  simp only [collectCat, List.filterMap_cons]
  rcases hc : classifyChild env name fi with _ | ⟨c', e⟩
  · simp [hc]
  · by_cases h : c' = c <;> simp [hc, h]

/-- `sortEntries` permutes its input. -/
theorem sortEntries_perm (l : List DirEntry) : (sortEntries l).Perm l :=
  List.perm_insertionSort _ l

/-- Membership is preserved by `sortEntries`. -/
theorem mem_sortEntries {l : List DirEntry} {e : DirEntry} :
    e ∈ sortEntries l ↔ e ∈ l :=
  (sortEntries_perm l).mem_iff

/-- When no child is named `index.html`, the loop never short-circuits and
appends to each category exactly the entries `collectCat` collects for it,
in enumeration order. -/
theorem dirLoop_no_index (env : Env) (name : String) :
    ∀ (fis : List FileInfo), (∀ fi ∈ fis, fi.name ≠ "index.html") →
    ∀ (d : DirListData),
    dirLoop env name fis d = .done
      { Path := d.Path
        Dirs := d.Dirs ++ collectCat env name .dirs fis
        Slides := d.Slides ++ collectCat env name .slides fis
        Articles := d.Articles ++ collectCat env name .articles fis
        Other := d.Other ++ collectCat env name .other fis }
  | [], _, d => by simp [dirLoop, collectCat]
  | fi :: rest, h, d => by
    have hni : fi.name ≠ "index.html" := h fi (List.mem_cons_self fi rest)
    have hrest : ∀ g ∈ rest, g.name ≠ "index.html" :=
      fun g hg => h g (List.mem_cons_of_mem fi hg)
    have ih := dirLoop_no_index env name rest hrest
    simp only [dirLoop]
    by_cases hpkg : name = "." ∧ fi.name = "pkg"
    · have hc : classifyChild env name fi = none := by
        simp [classifyChild, hpkg]
      simp only [if_pos hpkg, ih, collectCat_cons, hc]
      simp
    · simp only [if_neg hpkg, if_neg hni]
      by_cases hdir : fi.isDir ∧ showDir env (mkEntry name fi)
      · have hc : classifyChild env name fi = some (.dirs, mkEntry name fi) := by
          simp [classifyChild, hpkg, hni, hdir]
        simp only [if_pos hdir, ih, collectCat_cons, hc]
        simp
      · simp only [if_neg hdir]
        by_cases hdoc : isDoc (mkEntry name fi).Name
        · simp only [if_pos hdoc]
          split
          next heq =>
            have hc : classifyChild env name fi =
                some (.articles, titledEntry env (mkEntry name fi)) := by
              simp [classifyChild, hpkg, hni, hdir, hdoc, heq]
            simp only [ih, collectCat_cons, hc]
            simp
          next heq =>
            have hc : classifyChild env name fi =
                some (.slides, titledEntry env (mkEntry name fi)) := by
              simp [classifyChild, hpkg, hni, hdir, hdoc, heq]
            simp only [ih, collectCat_cons, hc]
            simp
          next hne1 hne2 =>
            have hc : classifyChild env name fi = none := by
              simp only [classifyChild, if_neg hpkg, if_neg hni, if_neg hdir,
                if_pos hdoc]
            simp only [ih, collectCat_cons, hc]
            simp
        · simp only [if_neg hdoc]
          by_cases hsf : showFile (mkEntry name fi).Name
          · have hc : classifyChild env name fi = some (.other, mkEntry name fi) := by
              simp [classifyChild, hpkg, hni, hdir, hdoc, hsf]
            simp only [if_pos hsf, ih, collectCat_cons, hc]
            simp
          · have hc : classifyChild env name fi = none := by
              simp [classifyChild, hpkg, hni, hdir, hdoc, hsf]
            simp only [if_neg hsf, ih, collectCat_cons, hc]
            simp

/-- When the stat succeeds on a directory, the read succeeds, and no child
is named `index.html`, `dirList` reports a handled directory with no error
and writes the listing page over the data `mkData` describes. -/
theorem dirList_eq_listing (env : Env) (name : String) (st : FileInfo)
    (fis : List FileInfo)
    (h1 : env.openStat name = .ok st) (h2 : st.isDir = true)
    (h3 : env.readDir name = .ok fis)
    (h4 : ∀ fi ∈ fis, fi.name ≠ "index.html") :
    dirList env name =
      ⟨true, none, some (.listingPage (mkData env name fis)
        (env.execListing (mkData env name fis)))⟩ := by
  simp only [dirList, h1, h2, h3]
  rw [dirLoop_no_index env name fis h4]
  by_cases hp : name = "." <;>
    simp [hp, mkData]

/-! ## Claim C9 -/

/-- C9: for every path that stats to a non-directory, `dirList` returns
`isDir = false` with a nil error and writes nothing, so the Router can
fall through to the next dispatch strategy. -/
theorem dirList_nondir_falls_through (env : Env) (name : String)
    (fi : FileInfo) (h1 : env.openStat name = .ok fi)
    (h2 : fi.isDir = false) :
    dirList env name = ⟨false, none, none⟩ := by
  simp [dirList, h1, h2]

/-- Witness for C9: the plain file `f.bin` is reported as not-a-directory
with no error and no output. -/
theorem dirList_nondir_falls_through_witness :
    dirList envFile "f.bin" = ⟨false, none, none⟩ :=
  dirList_nondir_falls_through envFile "f.bin" ⟨"f.bin", false⟩ rfl rfl

/-! ## Claim C2 -/

/-- C2: the `parse` helper does not forward its mode argument: for every
environment, name and mode it behaves exactly like a mode-0 (full) parse,
and with a collaborator that records the mode it receives, a titles-only
request (`TitlesOnly = 1`) reaches `present.Parse` as mode `0`. -/
theorem parse_ignores_mode_argument :
    (∀ (env : Env) (name : String) (mode : Nat),
      parse env name mode = parse env name 0) ∧
    parse envProbe "a.slide" TitlesOnly = .ok ⟨"0"⟩ ∧
    TitlesOnly = 1 :=
  ⟨fun _ _ _ => rfl, rfl, rfl⟩

/-! ## Claim C1 -/

/-- C1 counterexample: on a concrete legacy-prefix request the redirect
Location's path is `"/sandia-minimega"` prepended to the incoming path,
not the incoming path itself, so the path is not preserved verbatim. -/
theorem legacy_redirect_path_changed :
    dirHandler defaultEnv
        ⟨⟨"http", "docs.example.org", "/minimega.git/info/refs",
          "service=git-upload-pack"⟩⟩ =
      .redirect 301
        ⟨"http", "github.com", "/sandia-minimega/minimega.git/info/refs",
          "service=git-upload-pack"⟩ ∧
    "/sandia-minimega/minimega.git/info/refs" ≠ "/minimega.git/info/refs" :=
  ⟨rfl, by decide⟩

/-- C1 as amended: every request whose path starts with `/minimega.git`
gets a 301 whose Location host is `github.com`, whose path is the incoming
path with `/sandia-minimega` prepended, and whose query string (and every
other URL component) is preserved verbatim. -/
theorem legacy_redirect (env : Env) (r : Request)
    (h : goHasPre r.url.path "/minimega.git" = true) :
    dirHandler env r =
      .redirect 301
        { r.url with host := "github.com",
                     path := "/sandia-minimega" ++ r.url.path } := by
  simp [dirHandler, h]

/-- Witness for C1. -/
theorem legacy_redirect_witness :
    dirHandler defaultEnv ⟨⟨"", "", "/minimega.git/x", "q=1"⟩⟩ =
      .redirect 301 ⟨"", "github.com", "/sandia-minimega/minimega.git/x", "q=1"⟩ :=
  legacy_redirect defaultEnv ⟨⟨"", "", "/minimega.git/x", "q=1"⟩⟩ (by decide)

/-! ## Claim C10 -/

/-- C10: when reading a candidate subdirectory's children fails,
`showDir` returns `false` (the error is neither logged nor propagated by
it), and a parent listing containing such a subdirectory completes
normally with the subdirectory excluded from every category. -/
theorem showDir_readdir_error_excluded :
    (∀ (env : Env) (e : DirEntry) (msg : String),
        env.readDir e.Path = .error msg → showDir env e = false) ∧
    dirList envSubErr "d" =
      ⟨true, none, some (.listingPage
        ⟨"d", [], [], [], [⟨"z.pdf", "d/z.pdf", ""⟩]⟩ "LISTING")⟩ := by
  constructor
  · intro env e msg h
    unfold showDir
    split
    · simp
    · rename_i files heq
      rw [h] at heq
      exact Except.noConfusion heq
  · rfl

/-- Witness for C10's universally quantified part, at a concrete
environment whose directory read fails. -/
theorem showDir_readdir_error_excluded_witness :
    defaultEnv.readDir "sub" = .error "readdir failed" ∧
    showDir defaultEnv ⟨"sub", "sub", ""⟩ = false :=
  ⟨rfl, showDir_readdir_error_excluded.1 defaultEnv ⟨"sub", "sub", ""⟩
    "readdir failed" rfl⟩

/-! ## Claim C5 -/

/-- When some child is named `index.html`, the loop short-circuits on the
first one with whatever `renderHTML` produced for it; every `index.html`
child yields the same entry path, so the outcome does not depend on which
one is hit first. -/
theorem dirLoop_index_html (env : Env) (name : String) :
    ∀ (fis : List FileInfo), (∃ fi ∈ fis, fi.name = "index.html") →
    ∀ (d : DirListData),
    dirLoop env name fis d =
      (match renderHTML env (toSlash (goJoin name "index.html")) with
       | .ok body =>
           .shortCircuit none
             (some (.htmlPage (toSlash (goJoin name "index.html")) body))
       | .error msg => .shortCircuit (some msg) none)
  | [], hex, _ => by simp at hex
  | fi :: rest, hex, d => by
    by_cases hfi : fi.name = "index.html"
    · simp [dirLoop, mkEntry, hfi]
    · have hex' : ∃ g ∈ rest, g.name = "index.html" := by
        rcases hex with ⟨g, hg, hgn⟩
        rcases List.mem_cons.mp hg with h | h
        · rw [h] at hgn
          exact absurd hgn hfi
        · exact ⟨g, h, hgn⟩
      have ih := dirLoop_index_html env name rest hex'
      simp only [dirLoop, if_neg hfi]
      repeat' split
      all_goals rw [ih]
      all_goals rename_i heq
      all_goals simp [heq]

/-- C5: whenever a directory's enumeration contains a child named
`index.html`, `dirList` reports the request handled (`isDir = true`),
never executes the listing template, and responds with exactly the HTML
page render of that child: its body on success, or its error (and no
output) on failure. -/
theorem index_html_short_circuits (env : Env) (name : String)
    (st : FileInfo) (fis : List FileInfo)
    (h1 : env.openStat name = .ok st) (h2 : st.isDir = true)
    (h3 : env.readDir name = .ok fis)
    (h4 : ∃ fi ∈ fis, fi.name = "index.html") :
    dirList env name =
      (match renderHTML env (toSlash (goJoin name "index.html")) with
       | .ok body =>
           ⟨true, none,
             some (.htmlPage (toSlash (goJoin name "index.html")) body)⟩
       | .error msg => ⟨true, some msg, none⟩) := by
  simp only [dirList, h1, h2, h3]
  rw [dirLoop_index_html env name fis h4]
  cases hr : renderHTML env (toSlash (goJoin name "index.html")) <;>
    simp [hr]

/-- Witness for C5: the directory `d` with children `a.txt` and
`index.html` responds with the HTML render of `d/index.html`. -/
theorem index_html_short_circuits_witness :
    dirList envIndex "d" =
      ⟨true, none, some (.htmlPage "d/index.html" "INDEXBODY")⟩ :=
  index_html_short_circuits envIndex "d" ⟨"d", true⟩
    [⟨"a.txt", false⟩, ⟨"index.html", false⟩] rfl rfl rfl
    ⟨⟨"index.html", false⟩, by decide, rfl⟩

/-! ## Claim C3 -/

/-- C3 counterexample: requesting the absent, unregistered path
`/nope.bin` produces a 500 carrying the lister's `os.Open` error — not
the 404 the static file responder would give — because `dirList`'s probe
error is surfaced by the Router before the fall-through. -/
theorem absent_file_yields_500_not_404 :
    dirHandler envAbsent ⟨⟨"", "", "/nope.bin", ""⟩⟩ =
      .httpError 500 "open nope.bin: no such file or directory" ∧
    envAbsent.staticFile "/nope.bin" = none ∧
    Response.httpError 500 "open nope.bin: no such file or directory" ≠
      .httpError 404 "404 page not found" :=
  ⟨rfl, rfl, by decide⟩

/-- C3 as amended: for a request outside the legacy prefix and favicon
whose resolved path has no registered document extension, stats to an
existing non-directory, and is not `.html`, the Router falls through
unchanged to the static file responder: 200 with the file content when
the responder serves it, 404 when it does not.  (When the path does not
exist at all, the lister's stat error is surfaced as a 500 instead.) -/
theorem fallthrough_static (env : Env) (r : Request) (st : FileInfo)
    (h0 : goHasPre r.url.path "/minimega.git" = false)
    (h1 : r.url.path ≠ "/favicon.ico")
    (h2 : isDoc (goJoin "." r.url.path) = false)
    (h3 : env.openStat (goJoin "." r.url.path) = .ok st)
    (h4 : st.isDir = false)
    (h5 : filepathExt (goJoin "." r.url.path) ≠ ".html") :
    dirHandler env r = fileServer env r.url.path ∧
    (∀ body, env.staticFile r.url.path = some body →
      dirHandler env r = .staticOk body) ∧
    (env.staticFile r.url.path = none →
      dirHandler env r = .httpError 404 "404 page not found") := by
  have hdl : dirList env (goJoin "." r.url.path) = ⟨false, none, none⟩ := by
    simp [dirList, h3, h4]
  have hmain : dirHandler env r = fileServer env r.url.path := by
    simp [dirHandler, h0, h1, h2, hdl, h5]
  refine ⟨hmain, ?_, ?_⟩
  · intro body hb
    rw [hmain]
    simp [fileServer, hb]
  · intro hb
    rw [hmain]
    simp [fileServer, hb]

/-- Witness for C3 as amended: the existing plain file `/file.bin` is
served by the static responder with its content. -/
theorem fallthrough_static_witness :
    dirHandler envStatic ⟨⟨"", "", "/file.bin", ""⟩⟩ = .staticOk "DATA" :=
  (fallthrough_static envStatic ⟨⟨"", "", "/file.bin", ""⟩⟩
    ⟨"file.bin", false⟩ rfl (by decide) rfl rfl rfl (by decide)).2.1
    "DATA" rfl

/-! ## Claim C8 -/

/-- C8: a document child whose titles-only parse fails does not abort the
listing: the listing still completes with no error, and the entry — with
its `Title` left empty — is still placed into Slides or Articles
according to its path's extension. -/
theorem title_parse_failure_nonfatal (env : Env) (name : String)
    (st : FileInfo) (fis : List FileInfo) (fi : FileInfo) (msg : String)
    (h1 : env.openStat name = .ok st) (h2 : st.isDir = true)
    (h3 : env.readDir name = .ok fis)
    (h4 : ∀ g ∈ fis, g.name ≠ "index.html")
    (h5 : fi ∈ fis)
    (h6 : fi.isDir = false)
    (h7 : ¬(name = "." ∧ fi.name = "pkg"))
    (h8 : parse env (mkEntry name fi).Path TitlesOnly = .error msg)
    (h9 : isDoc fi.name = true) :
    dirList env name =
      ⟨true, none, some (.listingPage (mkData env name fis)
        (env.execListing (mkData env name fis)))⟩ ∧
    (filepathExt (mkEntry name fi).Path = ".slide" →
      mkEntry name fi ∈ (mkData env name fis).Slides) ∧
    (filepathExt (mkEntry name fi).Path = ".article" →
      mkEntry name fi ∈ (mkData env name fis).Articles) := by
  have hni : fi.name ≠ "index.html" := h4 fi h5
  have ht : titledEntry env (mkEntry name fi) = mkEntry name fi := by
    unfold titledEntry
    rw [h8]
  have h9' : isDoc (mkEntry name fi).Name = true := h9
  have hdir : ¬(fi.isDir = true ∧ showDir env (mkEntry name fi) = true) := by
    simp [h6]
  refine ⟨dirList_eq_listing env name st fis h1 h2 h3 h4, ?_, ?_⟩
  · intro hext
    have hc : classifyChild env name fi = some (.slides, mkEntry name fi) := by
      simp [classifyChild, h7, hni, hdir, h9', hext, ht]
    refine mem_sortEntries.mpr (List.mem_filterMap.mpr ⟨fi, h5, ?_⟩)
    simp [hc]
  · intro hext
    have hc : classifyChild env name fi = some (.articles, mkEntry name fi) := by
      simp [classifyChild, h7, hni, hdir, h9', hext, ht]
    refine mem_sortEntries.mpr (List.mem_filterMap.mpr ⟨fi, h5, ?_⟩)
    simp [hc]

/-- Witness for C8: in `docs`, the document `a.slide` whose source fails
to open is still listed under Slides with an empty title. -/
theorem title_parse_failure_nonfatal_witness :
    parse envBadDoc "docs/a.slide" TitlesOnly = .error "open failed" ∧
    (⟨"a.slide", "docs/a.slide", ""⟩ : DirEntry) ∈
      (mkData envBadDoc "docs" [⟨"a.slide", false⟩, ⟨"b.slide", false⟩]).Slides :=
  ⟨rfl,
    (title_parse_failure_nonfatal envBadDoc "docs" ⟨"docs", true⟩
      [⟨"a.slide", false⟩, ⟨"b.slide", false⟩] ⟨"a.slide", false⟩ "open failed"
      rfl rfl rfl (by decide) (by decide) rfl (by decide) rfl rfl).2.1 rfl⟩

/-! ## Claim C6 -/

/-- Each enumerated child contributes at most one entry across the four
collected categories: their total size equals the number of children the
classification sends anywhere. -/
theorem collectCat_length_sum (env : Env) (name : String) :
    ∀ (fis : List FileInfo),
    (collectCat env name .dirs fis).length +
      (collectCat env name .slides fis).length +
      (collectCat env name .articles fis).length +
      (collectCat env name .other fis).length =
      fis.countP fun fi => (classifyChild env name fi).isSome
  | [] => by simp [collectCat]
  | fi :: rest => by
    have ih := collectCat_length_sum env name rest
    rcases hc : classifyChild env name fi with _ | ⟨c, e⟩
    · simp [collectCat_cons, hc, List.countP_cons, ih]
    · cases c <;> simp [collectCat_cons, hc, List.countP_cons, ih] <;> omega

/-- C6 counterexample: the subdirectory `a.slide` of `d` fails the
directory-visibility predicate, yet the listing places it in the Slides
category rather than omitting it, because a directory failing `showDir`
falls through to document classification by extension. -/
theorem dir_failing_visibility_lands_in_slides :
    envDocDir.readDir "d" = .ok [⟨"a.slide", true⟩] ∧
    showDir envDocDir ⟨"a.slide", "d/a.slide", ""⟩ = false ∧
    dirList envDocDir "d" =
      ⟨true, none, some (.listingPage
        ⟨"d", [], [⟨"a.slide", "d/a.slide", ""⟩], [], []⟩ "LISTING")⟩ :=
  ⟨rfl, rfl, rfl⟩

/-- C6 as amended: every enumerated child is placed by a single
classification into at most one of the four categories or omitted — the
four categories of the rendered data are exactly the sorted collections
of one `Option`-valued classifier, and their total size equals the number
of children classified anywhere.  (A child directory failing the
directory-visibility predicate is omitted only when its name also fails
document and file classification; otherwise it falls through to those.) -/
theorem listing_partition (env : Env) (name : String) (st : FileInfo)
    (fis : List FileInfo)
    (h1 : env.openStat name = .ok st) (h2 : st.isDir = true)
    (h3 : env.readDir name = .ok fis)
    (h4 : ∀ fi ∈ fis, fi.name ≠ "index.html") :
    dirList env name =
      ⟨true, none, some (.listingPage (mkData env name fis)
        (env.execListing (mkData env name fis)))⟩ ∧
    (mkData env name fis).Dirs = sortEntries (collectCat env name .dirs fis) ∧
    (mkData env name fis).Slides = sortEntries (collectCat env name .slides fis) ∧
    (mkData env name fis).Articles = sortEntries (collectCat env name .articles fis) ∧
    (mkData env name fis).Other = sortEntries (collectCat env name .other fis) ∧
    (mkData env name fis).Dirs.length + (mkData env name fis).Slides.length +
      (mkData env name fis).Articles.length + (mkData env name fis).Other.length =
      fis.countP (fun fi => (classifyChild env name fi).isSome) := by
  refine ⟨dirList_eq_listing env name st fis h1 h2 h3 h4, rfl, rfl, rfl, rfl, ?_⟩
  have l1 := (sortEntries_perm (collectCat env name .dirs fis)).length_eq
  have l2 := (sortEntries_perm (collectCat env name .slides fis)).length_eq
  have l3 := (sortEntries_perm (collectCat env name .articles fis)).length_eq
  have l4 := (sortEntries_perm (collectCat env name .other fis)).length_eq
  have hd1 : (mkData env name fis).Dirs =
      sortEntries (collectCat env name .dirs fis) := rfl
  have hd2 : (mkData env name fis).Slides =
      sortEntries (collectCat env name .slides fis) := rfl
  have hd3 : (mkData env name fis).Articles =
      sortEntries (collectCat env name .articles fis) := rfl
  have hd4 : (mkData env name fis).Other =
      sortEntries (collectCat env name .other fis) := rfl
  rw [hd1, hd2, hd3, hd4, l1, l2, l3, l4]
  exact collectCat_length_sum env name fis

/-- Witness for C6 as amended, on the directory with an unreadable
subdirectory and one visible file: one child classified, one omitted. -/
theorem listing_partition_witness :
    (mkData envSubErr "d" [⟨"sub", true⟩, ⟨"z.pdf", false⟩]).Dirs.length +
      (mkData envSubErr "d" [⟨"sub", true⟩, ⟨"z.pdf", false⟩]).Slides.length +
      (mkData envSubErr "d" [⟨"sub", true⟩, ⟨"z.pdf", false⟩]).Articles.length +
      (mkData envSubErr "d" [⟨"sub", true⟩, ⟨"z.pdf", false⟩]).Other.length =
      List.countP (fun fi => (classifyChild envSubErr "d" fi).isSome)
        [⟨"sub", true⟩, ⟨"z.pdf", false⟩] :=
  (listing_partition envSubErr "d" ⟨"d", true⟩ [⟨"sub", true⟩, ⟨"z.pdf", false⟩]
    rfl rfl rfl (by decide)).2.2.2.2.2

/-! ## Claim C7 -/

/-- Characterization of `showDir`: a directory entry is shown iff its
name is not hidden (leading `.` or `_`), is not the reserved `present`,
its children can be read, and at least one child passes `showFile`. -/
theorem showDir_iff (env : Env) (e : DirEntry) :
    showDir env e = true ↔
      (¬(e.Name.length > 0 ∧ (e.Name.front = '.' ∨ e.Name.front = '_')) ∧
       e.Name ≠ "present" ∧
       ∃ files, env.readDir e.Path = .ok files ∧
         ∃ f ∈ files, showFile f.name = true) := by
  unfold showDir
  by_cases hname :
      (e.Name.length > 0 ∧ (e.Name.front = '.' ∨ e.Name.front = '_')) ∨
        e.Name = "present"
  · rw [if_pos hname]
    simp only [Bool.false_eq_true, false_iff]
    rintro ⟨hn1, hn2, -⟩
    rcases hname with h | h
    · exact hn1 h
    · exact hn2 h
  · rw [if_neg hname]
    have hn1 : ¬(e.Name.length > 0 ∧ (e.Name.front = '.' ∨ e.Name.front = '_')) :=
      fun h => hname (Or.inl h)
    have hn2 : e.Name ≠ "present" := fun h => hname (Or.inr h)
    rcases hr : env.readDir e.Path with msg | files
    · simp only [Bool.false_eq_true, false_iff]
      rintro ⟨-, -, files2, hfiles2, -⟩
      exact Except.noConfusion hfiles2
    · simp only [List.any_eq_true]
      constructor
      · rintro ⟨f, hf, hsf⟩
        exact ⟨hn1, hn2, files, rfl, f, hf, hsf⟩
      · rintro ⟨-, -, files2, hfiles2, f, hf, hsf⟩
        injection hfiles2 with hq
        subst hq
        exact ⟨f, hf, hsf⟩

/-- Inversion: a child classified into the Dirs category is a directory
that passes `showDir`, was not the `pkg`-at-root skip nor an
`index.html`, and contributes exactly its bare entry. -/
theorem classify_dirs_inv (env : Env) (name : String) (fi : FileInfo)
    (e : DirEntry) (h : classifyChild env name fi = some (.dirs, e)) :
    fi.isDir = true ∧ showDir env (mkEntry name fi) = true ∧
    ¬(name = "." ∧ fi.name = "pkg") ∧ fi.name ≠ "index.html" ∧
    e = mkEntry name fi := by
  by_cases hpkg : name = "." ∧ fi.name = "pkg"
  · simp only [classifyChild, if_pos hpkg] at h
    exact Option.noConfusion h
  · by_cases hni : fi.name = "index.html"
    · simp only [classifyChild, if_neg hpkg, if_pos hni] at h
      exact Option.noConfusion h
    · by_cases hdir : fi.isDir = true ∧ showDir env (mkEntry name fi) = true
      · simp only [classifyChild, if_neg hpkg, if_neg hni, if_pos hdir,
          Option.some.injEq, Prod.mk.injEq, true_and] at h
        exact ⟨hdir.1, hdir.2, hpkg, hni, h.symm⟩
      · simp only [classifyChild, if_neg hpkg, if_neg hni, if_neg hdir] at h
        by_cases hdoc : isDoc (mkEntry name fi).Name = true
        · rw [if_pos hdoc] at h
          split at h <;> simp_all
        · rw [if_neg hdoc] at h
          by_cases hsf : showFile (mkEntry name fi).Name = true
          · rw [if_pos hsf] at h
            simp_all
          · rw [if_neg hsf] at h
            exact Option.noConfusion h

/-- Children with distinct names are determined by their name. -/
theorem fileinfo_name_inj {fis : List FileInfo}
    (h : (fis.map FileInfo.name).Nodup) {a b : FileInfo}
    (ha : a ∈ fis) (hb : b ∈ fis) (hn : a.name = b.name) : a = b :=
  List.inj_on_of_nodup_map h ha hb hn

/-- C7 as amended: (i) `showDir` holds iff the name is not hidden and not
`present`, the directory's children can be enumerated, and some child
passes `showFile`; (ii) in a listing with distinct child names and no
`index.html`, a child's entry is in the Dirs category iff the child is a
directory passing `showDir` that is not the `pkg`-at-root skip.  Hence a
subdirectory none of whose readable children pass `showFile` is excluded
from Dirs (though it may still be classified as a document or file by its
extension). -/
theorem dirs_membership (env : Env) (name : String) (st : FileInfo)
    (fis : List FileInfo) (fi : FileInfo)
    (h1 : env.openStat name = .ok st) (h2 : st.isDir = true)
    (h3 : env.readDir name = .ok fis)
    (h4 : ∀ g ∈ fis, g.name ≠ "index.html")
    (h5 : (fis.map FileInfo.name).Nodup)
    (h6 : fi ∈ fis) :
    dirList env name =
      ⟨true, none, some (.listingPage (mkData env name fis)
        (env.execListing (mkData env name fis)))⟩ ∧
    (showDir env (mkEntry name fi) = true ↔
      (¬((mkEntry name fi).Name.length > 0 ∧
          ((mkEntry name fi).Name.front = '.' ∨
           (mkEntry name fi).Name.front = '_')) ∧
       (mkEntry name fi).Name ≠ "present" ∧
       ∃ files, env.readDir (mkEntry name fi).Path = .ok files ∧
         ∃ f ∈ files, showFile f.name = true)) ∧
    (mkEntry name fi ∈ (mkData env name fis).Dirs ↔
      (fi.isDir = true ∧ showDir env (mkEntry name fi) = true ∧
       ¬(name = "." ∧ fi.name = "pkg"))) := by
  have hd : (mkData env name fis).Dirs =
      sortEntries (collectCat env name .dirs fis) := rfl
  refine ⟨dirList_eq_listing env name st fis h1 h2 h3 h4,
    showDir_iff env (mkEntry name fi), ?_, ?_⟩
  · intro hmem
    rw [hd] at hmem
    rcases List.mem_filterMap.mp (mem_sortEntries.mp hmem) with ⟨fj, hfj, hcls⟩
    rcases hc2 : classifyChild env name fj with _ | ⟨c, e⟩ <;> rw [hc2] at hcls
    · exact Option.noConfusion hcls
    · by_cases hcc : c = Category.dirs
      · subst hcc
        simp only [reduceIte, Option.some.injEq] at hcls
        have hinv := classify_dirs_inv env name fj e hc2
        have hme : mkEntry name fj = mkEntry name fi :=
          hinv.2.2.2.2.symm.trans hcls
        have hname : fj.name = fi.name := congrArg DirEntry.Name hme
        have : fj = fi := fileinfo_name_inj h5 hfj h6 hname
        subst this
        exact ⟨hinv.1, hinv.2.1, hinv.2.2.1⟩
      · simp only [if_neg hcc] at hcls
        exact Option.noConfusion hcls
  · rintro ⟨hdir, hshow, hnpkg⟩
    have hni := h4 fi h6
    have hc : classifyChild env name fi = some (.dirs, mkEntry name fi) := by
      simp [classifyChild, hnpkg, hni, hdir, hshow]
    rw [hd]
    exact mem_sortEntries.mpr (List.mem_filterMap.mpr ⟨fi, h6, by simp [hc]⟩)

/-- C7 counterexample: at the serving root, the child directory `pkg`
passes the directory-visibility predicate (it has a visible child), yet
the listing's Dirs category is empty, because `pkg` is skipped at the
root before classification. -/
theorem pkg_dir_excluded_despite_visibility :
    showDir envPkg ⟨"pkg", "pkg", ""⟩ = true ∧
    dirList envPkg "." =
      ⟨true, none, some (.listingPage ⟨"", [], [], [], []⟩ "LISTING")⟩ :=
  ⟨rfl, rfl⟩

/-- Witness for C7 as amended: in `top`, the visible subdirectory `good`
is a member of the Dirs category. -/
theorem dirs_membership_witness :
    (⟨"good", "top/good", ""⟩ : DirEntry) ∈
      (mkData envDirs "top"
        [⟨"good", true⟩, ⟨".hid", true⟩, ⟨"present", true⟩,
          ⟨"empty", true⟩]).Dirs :=
  (dirs_membership envDirs "top" ⟨"top", true⟩
    [⟨"good", true⟩, ⟨".hid", true⟩, ⟨"present", true⟩, ⟨"empty", true⟩]
    ⟨"good", true⟩ rfl rfl rfl (by decide) (by decide)
    (by decide)).2.2.mpr ⟨rfl, rfl, by decide⟩

/-! ## Claim C4 -/

/-- The per-category collection respects permutations of the enumeration
order. -/
theorem collectCat_perm (env : Env) (name : String) (c : Category)
    {l₁ l₂ : List FileInfo} (h : l₁.Perm l₂) :
    (collectCat env name c l₁).Perm (collectCat env name c l₂) :=
  h.filterMap _

/-- A list that is a permutation of a pair is one of its two orders. -/
theorem perm_pair_eq {α : Type} {l : List α} {a b : α}
    (h : l.Perm [a, b]) : l = [a, b] ∨ l = [b, a] := by
  rcases l with _ | ⟨x, _ | ⟨y, _ | ⟨z, t⟩⟩⟩
  · exact absurd h.length_eq (by simp)
  · exact absurd h.length_eq (by simp)
  · have hx : x ∈ [a, b] := h.subset (by simp)
    rcases List.mem_pair.mp hx with hxa | hxb
    · rw [hxa] at h
      have hy : y = b := by simpa using List.perm_singleton.mp h.cons_inv
      left
      rw [hxa, hy]
    · rw [hxb] at h
      have hswap : ([b, a] : List α).Perm [a, b] := List.Perm.swap a b []
      have hy : y = a := by
        simpa using List.perm_singleton.mp (h.trans hswap.symm).cons_inv
      right
      rw [hxb, hy]
  · exact absurd h.length_eq (by simp)

/-- C4: listing `talks` containing `b.slide`, `a.article`, `z.pdf` and the
hidden subdirectory `.git` yields Dirs = [], Slides = [b.slide],
Articles = [a.article], Other = [z.pdf]; after adding `c.slide`, Slides =
[b.slide, c.slide] in that order for EVERY enumeration order of the five
children — each category is sorted ascending by name before rendering. -/
theorem listing_categories_sorted :
    dirList (envTalks talksFour) "talks" =
      ⟨true, none, some (.listingPage dataFour "LISTING")⟩ ∧
    ∀ fis, fis.Perm talksFive →
      dirList (envTalks fis) "talks" =
        ⟨true, none, some (.listingPage dataFive "LISTING")⟩ := by
  constructor
  · rfl
  · intro fis hperm
    have hall : ∀ g ∈ talksFive, g.name ≠ "index.html" := by decide
    have h4 : ∀ fi ∈ fis, fi.name ≠ "index.html" :=
      fun fi hfi => hall fi (hperm.subset hfi)
    rw [dirList_eq_listing (envTalks fis) "talks" ⟨"talks", true⟩ fis
      rfl rfl rfl h4]
    have pd := collectCat_perm (envTalks fis) "talks" .dirs hperm
    have ps := collectCat_perm (envTalks fis) "talks" .slides hperm
    have pa := collectCat_perm (envTalks fis) "talks" .articles hperm
    have po := collectCat_perm (envTalks fis) "talks" .other hperm
    rw [show collectCat (envTalks fis) "talks" .dirs talksFive = [] from rfl]
      at pd
    rw [show collectCat (envTalks fis) "talks" .slides talksFive =
      [entryB, entryC] from rfl] at ps
    rw [show collectCat (envTalks fis) "talks" .articles talksFive =
      [entryA] from rfl] at pa
    rw [show collectCat (envTalks fis) "talks" .other talksFive =
      [entryZ] from rfl] at po
    have hD : mkData (envTalks fis) "talks" fis = dataFive := by
      simp only [mkData]
      rw [pd.eq_nil, List.perm_singleton.mp pa, List.perm_singleton.mp po]
      rcases perm_pair_eq ps with hs | hs <;> rw [hs] <;> rfl
    rw [hD]
    rfl

/-- Witness for C4's order-independence, at a fully reversed enumeration
of the five children. -/
theorem listing_categories_sorted_witness :
    dirList (envTalks [⟨"c.slide", false⟩, ⟨"a.article", false⟩,
        ⟨"b.slide", false⟩, ⟨".git", true⟩, ⟨"z.pdf", false⟩]) "talks" =
      ⟨true, none, some (.listingPage dataFive "LISTING")⟩ :=
  listing_categories_sorted.2
    [⟨"c.slide", false⟩, ⟨"a.article", false⟩, ⟨"b.slide", false⟩,
      ⟨".git", true⟩, ⟨"z.pdf", false⟩]
    (List.isPerm_iff.mp (by decide))

end Minidoc
